import Mathlib

/-!
Verification development for the news-reader content-ingestion pipeline.

The definitions below are a shallow embedding of the pipeline engine:

* namespace `Core` models the `fetcher-core` crate
  (`fetcher-core/src/transform.rs`, `fetcher-core/src/action/filter.rs`,
  `fetcher-core/src/error/transform.rs`, `fetcher-core/src/exec.rs`);
* namespace `Reader` models the older single-crate snapshot
  (`src/telegram.rs`, `src/auth/google.rs`, `src/source/parser/json.rs`).

External collaborators (network transports, the `url` and `serde_json`
parsers, the spawned shell) are passed in as explicit function arguments or
response traces, so that every definition stays executable.
-/

namespace Core

/-- Media variant of the `fetcher-core` message model: `Photo(Url) | Video(Url)`.
URLs are represented by their string rendering. -/
inductive Media where
  | photo (url : String)
  | video (url : String)
deriving DecidableEq, Repr

/-- Message model of `fetcher-core` (`sink::message::Message`): all fields
independently optional. -/
structure Message where
  title : Option String := none
  body : Option String := none
  link : Option String := none
  media : Option (List Media) := none
deriving DecidableEq, Repr

/-- Entry model of `fetcher-core` (`entry::Entry`). -/
structure Entry where
  id : Option String := none
  raw_contents : Option String := none
  msg : Message := {}
deriving DecidableEq, Repr

/-- Transform error kinds of `fetcher-core/src/error/transform.rs`; the inner
library error payloads are abstracted to strings. -/
inductive TransformErrorKind where
  | http (e : String)
  | rss (e : String)
  | html (e : String)
  | json (e : String)
deriving DecidableEq, Repr

/-- Transform error of `fetcher-core/src/error/transform.rs`: a kind together
with the original entry that triggered it. -/
structure TransformError where
  kind : TransformErrorKind
  original_entry : Entry
deriving DecidableEq, Repr

/-- Field claim of `Transform::transform_one`
(`fetcher-core/src/transform.rs` lines 90-96): the Rust expression
`new.or_else(|| entry.field.take())` keeps the transform's value when present
(leaving the input field in place) and otherwise moves the input field out,
clearing it. Returns `(output field, remaining input field)`. -/
def claimField : Option α → Option α → Option α × Option α
  | st, some v => (some v, st)
  | st, none => (st, none)

/-- One step of the merge-fallback loop of `Transform::transform_one`: builds
one output entry from the remaining input entry `st` and the transform's
output `new`, returning the output and the depleted input. -/
def mergeOne (st new : Entry) : Entry × Entry :=
  let i := claimField st.id new.id
  let r := claimField st.raw_contents new.raw_contents
  let t := claimField st.msg.title new.msg.title
  let b := claimField st.msg.body new.msg.body
  let l := claimField st.msg.link new.msg.link
  let m := claimField st.msg.media new.msg.media
  ({ id := i.1, raw_contents := r.1,
     msg := { title := t.1, body := b.1, link := l.1, media := m.1 } },
   { id := i.2, raw_contents := r.2,
     msg := { title := t.2, body := b.2, link := l.2, media := m.2 } })

/-- Merge-fallback applied to the whole output list of a transform, exactly as
the `map` closure over `v.into_iter()` in `Transform::transform_one` threads
the mutable `entry` left to right. -/
def mergeAll (st : Entry) : List Entry → List Entry
  | [] => []
  | e :: es =>
    let p := mergeOne st e
    p.1 :: mergeAll p.2 es

/-- Modelled from the spec: state of the `NewerThanLastRead` dedup strategy
(`read_filter::newer::Newer`, whose implementation file is not part of the
sources here; the field shape is taken from `src/config/read_filter.rs`). -/
structure Newer where
  last_read_id : Option String
deriving DecidableEq, Repr

/-- Modelled from the spec: state of the `NotPresentInReadList` dedup strategy
(`read_filter::not_present::NotPresent`; field shape from
`src/config/read_filter.rs`). -/
structure NotPresent where
  read_list : List String
deriving DecidableEq, Repr

/-- Modelled from the spec: the two interchangeable read-filter strategies
(`read_filter::Inner`). -/
inductive ReadFilterInner where
  | newerThanLastRead (s : Newer)
  | notPresentInReadList (s : NotPresent)
deriving DecidableEq, Repr

/-- Modelled from the spec: the per-task dedup ledger
(`read_filter::ReadFilter`), a name together with a strategy state. -/
structure ReadFilter where
  name : String
  inner : ReadFilterInner
deriving DecidableEq, Repr

/-- Modelled from the spec: `remove_read_from` for `NewerThanLastRead`.
Entries arrive in stable reverse-chronological order, so an id is read iff it
equals or precedes `last_read_id` in recency, that is, iff it sits at or after
the first occurrence of `last_read_id` in the list; the surviving entries are
the prefix strictly before that occurrence. An absent watermark removes
nothing. -/
def removeReadNewer (lri : String) : List Entry → List Entry
  | [] => []
  | e :: es => if e.id = some lri then [] else e :: removeReadNewer lri es

/-- Modelled from the spec: `remove_read_from` dispatching on the strategy.
For `NotPresentInReadList` an id is read iff present in the read list;
entries without an id are never considered read. -/
def ReadFilter.removeReadFrom (rf : ReadFilter) (entries : List Entry) : List Entry :=
  match rf.inner with
  | .newerThanLastRead s =>
    match s.last_read_id with
    | none => entries
    | some lri => removeReadNewer lri entries
  | .notPresentInReadList s =>
    entries.filter fun e =>
      match e.id with
      | none => true
      | some i => !(s.read_list.contains i)

/-- Modelled from the spec: `mark_as_read`. `NewerThanLastRead` sets the
watermark unconditionally; `NotPresentInReadList` appends with set
semantics. -/
def ReadFilter.markAsRead (rf : ReadFilter) (id : String) : ReadFilter :=
  match rf.inner with
  | .newerThanLastRead _ =>
    { rf with inner := .newerThanLastRead { last_read_id := some id } }
  | .notPresentInReadList s =>
    if s.read_list.contains id then rf
    else { rf with inner := .notPresentInReadList { read_list := s.read_list ++ [id] } }

/-- Transform step enum of `fetcher-core/src/transform.rs`. The concrete
per-entry behaviors (`Http::transform`, `Html`, `Json`, `Rss`, `Caps` — whose
implementation files are external to the sources verified here) are abstracted
to the function each variant dispatches to: `Caps` is infallible and the four
parsing/fetching steps may fail with a `TransformErrorKind`. -/
inductive Transform where
  | http (f : Entry → Except TransformErrorKind (List Entry))
  | html (f : Entry → Except TransformErrorKind (List Entry))
  | json (f : Entry → Except TransformErrorKind (List Entry))
  | rss (f : Entry → Except TransformErrorKind (List Entry))
  | readFilter (rf : ReadFilter)
  | caps (f : Entry → List Entry)

/-- Inner dispatch of `Transform::transform_one` (the `match self` block):
`none` marks the `unreachable!` panic taken by the `ReadFilter` arm. -/
def Transform.innerOf : Transform → Entry → Option (Except TransformErrorKind (List Entry))
  | .http f, e => some (f e)
  | .html f, e => some (f e)
  | .json f, e => some (f e)
  | .rss f, e => some (f e)
  | .readFilter _, _ => none
  | .caps f, e => some (.ok (f e))

/-- Per-entry transform of `Transform::transform_one`: on failure the error is
paired with a clone of the untouched input entry; on success the merge-fallback
is applied. `none` propagates the `unreachable!` panic. -/
def Transform.transformOne (t : Transform) (entry : Entry) :
    Option (Except TransformError (List Entry)) :=
  match t.innerOf entry with
  | none => none
  | some (.error kind) => some (.error { kind := kind, original_entry := entry })
  | some (.ok v) => some (.ok (mergeAll entry v))

/-- Batch loop of `Transform::transform` (the `for entry in entries` loop
extending `fully_transformed_entries`, with `?` aborting at the first
failure). -/
def transformBatch (t : Transform) : List Entry → Option (Except TransformError (List Entry))
  | [] => some (.ok [])
  | e :: es =>
    match t.transformOne e with
    | none => none
    | some (.error err) => some (.error err)
    | some (.ok outs) =>
      match transformBatch t es with
      | none => none
      | some (.error err) => some (.error err)
      | some (.ok rest) => some (.ok (outs ++ rest))

/-- Batch entry point `Transform::transform`: the read-filter variant operates
on the whole list via `remove_read_from`; every other variant runs the
per-entry loop. -/
def Transform.transform : Transform → List Entry → Option (Except TransformError (List Entry))
  | .readFilter rf, entries => some (.ok (rf.removeReadFrom entries))
  | t, entries => transformBatch t entries

/-- Sink error of the `Exec` sink (`fetcher-core/src/exec.rs`): the spawn and
stdin-write failures it maps its process errors into; payloads abstracted to
strings. -/
inductive SinkError where
  | cantStart (e : String)
  | cantWriteStdin (e : String)
deriving DecidableEq, Repr

/-- Observable effects of the `Exec` sink on the host process. -/
inductive ExecEffect where
  | spawn (cmd : String)
  | writeStdin (data : String)
  | wait
deriving DecidableEq, Repr

/-- Send of the `Exec` sink (`impl Sink for Exec`, `fetcher-core/src/exec.rs`):
a missing body returns `Ok(())` at once; otherwise a shell is spawned, the body
written to its stdin when the handle exists, and the process awaited. Host
outcomes are inputs: `spawnRes` yields whether a stdin handle exists,
`writeRes` and `waitRes` the outcomes of the write and the wait. Returns the
effect trace next to the result; the `tag` argument is ignored by the code. -/
def execSend (cmd : String) (message : Message) (_tag : Option String)
    (spawnRes : Except String Bool) (writeRes : Except String Unit)
    (waitRes : Except String Unit) : List ExecEffect × Except SinkError Unit :=
  match message.body with
  | none => ([], .ok ())
  | some body =>
    match spawnRes with
    | .error e => ([.spawn cmd], .error (.cantStart e))
    | .ok hasStdin =>
      if hasStdin then
        match writeRes with
        | .error e => ([.spawn cmd, .writeStdin body], .error (.cantWriteStdin e))
        | .ok () =>
          match waitRes with
          | .error e => ([.spawn cmd, .writeStdin body, .wait], .error (.cantStart e))
          | .ok () => ([.spawn cmd, .writeStdin body, .wait], .ok ())
      else
        match waitRes with
        | .error e => ([.spawn cmd, .wait], .error (.cantStart e))
        | .ok () => ([.spawn cmd, .wait], .ok ())

/-- Specification predicate for the claim-once merge-fallback on one field:
`after` agrees with `before` wherever the transform set the field, the first
output with the field unset receives the input's value, and every later unset
output stays unset. -/
def claimOnceSpec (input : Option α) (before after : List (Option α)) : Prop :=
  after.length = before.length ∧
  (∀ (i : Nat) (v : α), before[i]? = some (some v) → after[i]? = some (some v)) ∧
  (∀ (i : Nat), before[i]? = some none → (∀ k, k < i → before[k]? ≠ some none) →
    after[i]? = some input) ∧
  (∀ (i : Nat), before[i]? = some none → (∃ k, k < i ∧ before[k]? = some none) →
    after[i]? = some none)

/-- Reference fold for the claim-once semantics on a single field: the state is
the not-yet-claimed input value, cleared by the first output that needs it. -/
def claimFold (st : Option α) : List (Option α) → List (Option α)
  | [] => []
  | f :: fs =>
    match f with
    | some v => some v :: claimFold st fs
    | none => st :: claimFold none fs

end Core

namespace Reader

/-- Media variant of the single-crate snapshot (`src/telegram.rs`). -/
inductive Media where
  | photo (url : String)
  | video (url : String)
deriving DecidableEq, Repr

/-- Telegram-facing message of `src/telegram.rs`: a text and optional media. -/
structure TgMessage where
  text : String
  media : Option (List Media)
deriving DecidableEq, Repr

/-- Media payload item handed to `send_media_group`: the media together with
the caption attached to it (`InputMediaPhoto::new(..).caption(text)`). -/
structure InputMedia where
  media : Media
  caption : String
deriving DecidableEq, Repr

/-- Transport responses a send attempt can observe: success, the rate-limit
`RequestError::RetryAfter(n)`, or any other request error. -/
inductive Response where
  | ok
  | retryAfter (n : Nat)
  | fatal (why : String)
deriving DecidableEq, Repr

/-- Send error of the old crate (`Error::Send { why }`). -/
structure SendError where
  why : String
deriving DecidableEq, Repr

/-- Truncation step at the top of `Telegram::send` (`src/telegram.rs` lines
48-56): when the UTF-8 byte length exceeds 4096, the text is cut to its first
`4096 - 3` characters (via `char_indices().nth(4096 - 3)`) and `"..."` is
appended. `none` marks the `unwrap` panic taken when the text has more than
4096 bytes but at most `4096 - 3` characters, so `nth` finds no such index. -/
def truncated (text : String) : Option String :=
  if text.utf8ByteSize > 4096 then
    if 4096 - 3 < text.length then some (String.mk (text.data.take (4096 - 3)) ++ "...")
    else none
  else some text

/-- Retry loop of `Telegram::send_text`: each iteration sends the same
`message` and consumes the next transport response; `RetryAfter n` records a
sleep of `n` seconds and loops, any other error returns at once. Returns the
payload trace of the attempts made, the sleeps performed, and the result
(`none` when the response trace ran out with the loop still running). -/
def sendText (message : String) : List Response → List String × List Nat × Option (Except SendError Unit)
  | [] => ([], [], none)
  | r :: rs =>
    match r with
    | .ok => ([message], [], some (.ok ()))
    | .fatal why => ([message], [], some (.error { why := why }))
    | .retryAfter n =>
      let rest := sendText message rs
      (message :: rest.1, n :: rest.2.1, rest.2.2)

/-- Retry loop of `Telegram::send_media`, identical in structure to
`send_text` but resending the cloned media group each iteration. -/
def sendMedia (media : List InputMedia) : List Response → List (List InputMedia) × List Nat × Option (Except SendError Unit)
  | [] => ([], [], none)
  | r :: rs =>
    match r with
    | .ok => ([media], [], some (.ok ()))
    | .fatal why => ([media], [], some (.error { why := why }))
    | .retryAfter n =>
      let rest := sendMedia media rs
      (media :: rest.1, n :: rest.2.1, rest.2.2)

/-- Payload traces of `Telegram::send`: either text attempts or media-group
attempts, depending on which delivery call was taken. -/
inductive SendTrace where
  | text (attempts : List String) (sleeps : List Nat)
  | media (attempts : List (List InputMedia)) (sleeps : List Nat)
deriving DecidableEq, Repr

/-- Entry point `Telegram::send`: truncate first (propagating the truncation
panic as `none`), then dispatch to the media-group call when media is present
and to the text call otherwise, with the truncated text used as the caption of
every media item. -/
def telegramSend (message : TgMessage) (responses : List Response) :
    Option (SendTrace × Option (Except SendError Unit)) :=
  match truncated message.text with
  | none => none
  | some text =>
    match message.media with
    | some media =>
      let r := sendMedia (media.map fun m => { media := m, caption := text }) responses
      some (.media r.1 r.2.1, r.2.2)
    | none =>
      let r := sendText text responses
      some (.text r.1 r.2.1, r.2.2)

/-- Refresh exchange response (`GoogleOAuth2Responce` in
`src/auth/google.rs`): a fresh token and its validity in seconds. -/
structure GoogleOAuth2Responce where
  access_token : String
  expires_in : Nat
deriving DecidableEq, Repr

/-- Credential state of `GoogleAuth` (`src/auth/google.rs`); the `Instant`
stored in `expires_in` is modelled as a natural point in time. -/
structure GoogleAuth where
  client_id : String
  client_secret : String
  refresh_token : String
  access_token : String
  expires_in : Nat
deriving DecidableEq, Repr

/-- Token access of `GoogleAuth::access_token`: when
`Instant::now().checked_duration_since(self.expires_in)` is `Some` — that is,
when `now` is at or past the stored expiry — the single refresh exchange
(whose network outcome is the input `resp`) replaces the token and expiry
before the token is returned; a refresh failure propagates as the error.
Strictly before expiry the stored token is returned with the state unchanged.
Returns the new credential state next to the token. -/
def accessToken (g : GoogleAuth) (now : Nat) (resp : Except String GoogleOAuth2Responce) :
    Except String (GoogleAuth × String) :=
  if g.expires_in ≤ now then
    match resp with
    | .error e => .error e
    | .ok r =>
      let g2 := { g with access_token := r.access_token, expires_in := now + r.expires_in }
      .ok (g2, g2.access_token)
  else .ok (g, g.access_token)

/-- JSON value tree mirroring `serde_json::Value`. Numbers are abstracted to an
integer with a float flag: `num n false` is an integral `i64`/`u64` number and
`num n true` a floating number (whose fractional part plays no role in any
extraction path, since `as_i64`/`as_u64` reject floats). -/
inductive JsonValue where
  | null
  | bool (b : Bool)
  | num (n : Int) (isFloat : Bool)
  | str (s : String)
  | arr (xs : List JsonValue)
  | obj (kvs : List (String × JsonValue))

/-- Escape of one character under Rust's `Debug` formatting of strings,
restricted to the common escapes. -/
def escapeChar (c : Char) : List Char :=
  if c = '\\' then ['\\', '\\']
  else if c = '"' then ['\\', '"']
  else if c = '\n' then ['\\', 'n']
  else if c = '\t' then ['\\', 't']
  else if c = '\r' then ['\\', 'r']
  else [c]

/-- Rust `Debug` quoting of a string: surrounding quotes with the content
escaped. -/
def quoteDebug (s : String) : String :=
  "\"" ++ String.mk (s.data.foldr (fun c acc => escapeChar c ++ acc) []) ++ "\""

/-- Joining of strings with a separator, as Rust's `Vec::join`. -/
def joinSep (sep : String) : List String → String
  | [] => ""
  | [x] => x
  | x :: xs => x ++ sep ++ joinSep sep xs

/-- Trim of leading and trailing whitespace, as Rust's `str::trim` (with the
whitespace set abstracted to ASCII whitespace). -/
def strTrim (s : String) : String :=
  String.mk (((s.data.dropWhile Char.isWhitespace).reverse.dropWhile
    Char.isWhitespace).reverse)

/-- Debug rendering of a `serde_json::Value` as produced by
`format!("{value:?}")`, used by the parser to fill `found_type`. -/
def JsonValue.debugRepr : JsonValue → String
  | .null => "Null"
  | .bool b => "Bool(" ++ toString b ++ ")"
  | .num n isFloat => "Number(" ++ toString n ++ (if isFloat then ".0" else "") ++ ")"
  | .str s => "String(" ++ quoteDebug s ++ ")"
  | .arr xs =>
    "Array [" ++ joinSep ", " (xs.attach.map fun x => x.1.debugRepr) ++ "]"
  | .obj kvs =>
    "Object \x7b" ++
      joinSep ", "
        (kvs.attach.map fun kv => quoteDebug kv.1.1 ++ ": " ++ kv.1.2.debugRepr) ++ "\x7d"
decreasing_by
· simp_wf
  have := List.sizeOf_lt_of_mem x.2
  omega
· simp_wf
  obtain ⟨⟨k, v⟩, hm⟩ := kv
  have := List.sizeOf_lt_of_mem hm
  simp at this ⊢
  omega

/-- Key lookup `Value::get(key)`: defined on objects only. -/
def JsonValue.get (v : JsonValue) (key : String) : Option JsonValue :=
  match v with
  | .obj kvs => (kvs.find? fun kv => kv.1 = key).map fun kv => kv.2
  | _ => none

/-- String view `Value::as_str`. -/
def JsonValue.asStr : JsonValue → Option String
  | .str s => some s
  | _ => none

/-- Signed-integer view `Value::as_i64`: integral numbers within `i64` range. -/
def JsonValue.asI64 : JsonValue → Option Int
  | .num n false => if -(2 ^ 63) ≤ n ∧ n < 2 ^ 63 then some n else none
  | _ => none

/-- Unsigned-integer view `Value::as_u64`: integral numbers within `u64`
range. -/
def JsonValue.asU64 : JsonValue → Option Int
  | .num n false => if 0 ≤ n ∧ n < 2 ^ 64 then some n else none
  | _ => none

/-- Text query of `src/source/parser/json.rs`: a key with optional literal
prepend/append wrappers. -/
structure TextQuery where
  string : String
  prepend : Option String
  append : Option String
deriving DecidableEq, Repr

/-- Query configuration of the JSON extraction engine (`Json` in
`src/source/parser/json.rs`). -/
structure Json where
  itemq : List String
  titleq : Option String
  textq : List TextQuery
  idq : String
  linkq : Option TextQuery
  imgq : Option (List String)
deriving DecidableEq, Repr

/-- Errors of the JSON extraction engine, mirroring the `Error` variants the
parser constructs; external error payloads are abstracted to strings. -/
inductive JError where
  | jsonParseInvalid (e : String)
  | keyNotFound (key : String)
  | keyWrongType (key : String) (expected_type : String) (found_type : String)
  | urlInvalid (url : String)
deriving DecidableEq, Repr

/-- Item-path navigation (`self.itemq.iter().try_fold(&json, ..)`): each
segment must resolve through `get`, a miss aborting with `KeyNotFound`. -/
def navigate (itemq : List String) (doc : JsonValue) : Except JError JsonValue :=
  itemq.foldlM
    (fun acc x =>
      match acc.get x with
      | some v => Except.ok v
      | none => Except.error (JError.keyNotFound x))
    doc

/-- Item iteration (`items_iter` in `Json::parse`): arrays iterate elements,
objects iterate values with keys discarded, anything else is the terminal type
error naming the last path segment; `none` marks the
`self.itemq.last().unwrap()` panic on an empty item path. -/
def itemsOf (j : Json) (items : JsonValue) : Option (Except JError (List JsonValue)) :=
  match items with
  | .arr xs => some (.ok xs)
  | .obj kvs => some (.ok (kvs.map fun kv => kv.2))
  | v =>
    match j.itemq.getLast? with
    | some key =>
      some (.error (.keyWrongType key "iterator (array, map)" v.debugRepr))
    | none => none

/-- One text query applied to an item: the value is looked up, must be a
string, is trimmed, and — when either wrapper is configured — surrounded with
the literal prepend and append. -/
def parseTextOne (item : JsonValue) (q : TextQuery) : Except JError String :=
  match item.get q.string with
  | none => .error (.keyNotFound q.string)
  | some tv =>
    match tv.asStr with
    | none => .error (.keyWrongType q.string "string" tv.debugRepr)
    | some s =>
      let t := strTrim s
      .ok (if q.prepend.isSome || q.append.isSome then
        (q.prepend.getD "") ++ t ++ (q.append.getD "") else t)

/-- Title extraction: optional and silent — a missing key or a non-string value
merely yields `None`; a string is trimmed. -/
def parseTitle (titleq : Option String) (item : JsonValue) : Option String :=
  ((titleq.bind fun s => item.get s).bind JsonValue.asStr).map fun s => strTrim s

/-- Required id extraction: a string is taken as is, an integral number is
stringified through `as_i64` then `as_u64`, anything else is a type error. -/
def parseId (idq : String) (item : JsonValue) : Except JError String :=
  match item.get idq with
  | none => .error (.keyNotFound idq)
  | some v =>
    match v.asStr with
    | some s => .ok s
    | none =>
      match v.asI64 with
      | some i => .ok (toString i)
      | none =>
        match v.asU64 with
        | some u => .ok (toString u)
        | none => .error (.keyWrongType idq "string/i64/u64" v.debugRepr)

/-- Optional link extraction: the string value is wrapped with the configured
prepend/append and then parsed as a URL by the external `urlParse`
collaborator, a parse failure aborting with `UrlInvalid`. -/
def parseLink (urlParse : String → Option String) (linkq : Option TextQuery)
    (item : JsonValue) : Except JError (Option String) :=
  match linkq with
  | none => .ok none
  | some lq =>
    match item.get lq.string with
    | none => .error (.keyNotFound lq.string)
    | some lv =>
      match lv.asStr with
      | none => .error (.keyWrongType lq.string "string" lv.debugRepr)
      | some s =>
        let s2 := if lq.prepend.isSome || lq.append.isSome then
          (lq.prepend.getD "") ++ s ++ (lq.append.getD "") else s
        match urlParse s2 with
        | none => .error (.urlInvalid s2)
        | some u => .ok (some u)

/-- Inner navigation of the image path (`try_fold` over `imgq.iter().skip(1)`
in `Json::parse`): each further segment must resolve through `get`. -/
def navFrom (first : JsonValue) (path : List String) : Except JError JsonValue :=
  path.foldlM
    (fun (val : JsonValue) x =>
      match val.get x with
      | some v => Except.ok v
      | none => Except.error (JError.keyNotFound x))
    first

/-- Optional nested image extraction: the image path is navigated from the
item (`imgq[0]` then a `try_fold` over the rest), the value must be a string
and is URL-parsed without wrappers; `none` marks the `imgq[0]` index panic on
an empty configured image path. -/
def parseImg (urlParse : String → Option String) (imgq : Option (List String))
    (item : JsonValue) : Option (Except JError (Option String)) :=
  match imgq with
  | none => some (.ok none)
  | some [] => none
  | some (q0 :: qrest) =>
    match item.get q0 with
    | none => some (.error (.keyNotFound q0))
    | some first =>
      match navFrom first qrest with
      | .error e => some (.error e)
      | .ok imgVal =>
        match imgVal.asStr with
        | none =>
          some (.error (.keyWrongType ((q0 :: qrest).getLast (List.cons_ne_nil q0 qrest))
            "string" imgVal.debugRepr))
        | some s =>
          match urlParse s with
          | none => some (.error (.urlInvalid s))
          | some u => some (.ok (some u))

/-- Message of the single-crate snapshot as built by the JSON parser: the body
is a plain string there, the other fields optional. -/
structure Message where
  title : Option String
  body : String
  link : Option String
  media : Option (List Media)
deriving DecidableEq, Repr

/-- Entry of the single-crate snapshot: a required string id and a message. -/
structure Entry where
  id : String
  msg : Message
deriving DecidableEq, Repr

/-- Extraction of one item (the closure mapped over `items_iter` in
`Json::parse`): title silently optional, texts joined with `"\n\n"`, then id,
link and image, each aborting the item on failure; `none` propagates the image
path index panic. -/
def parseItem (urlParse : String → Option String) (j : Json) (item : JsonValue) :
    Option (Except JError Entry) :=
  let title := parseTitle j.titleq item
  match j.textq.mapM (parseTextOne item) with
  | .error e => some (.error e)
  | .ok texts =>
    let text := joinSep "\n\n" texts
    match parseId j.idq item with
    | .error e => some (.error e)
    | .ok id =>
      match parseLink urlParse j.linkq item with
      | .error e => some (.error e)
      | .ok link =>
        match parseImg urlParse j.imgq item with
        | none => none
        | some (.error e) => some (.error e)
        | some (.ok img) =>
          some (.ok
            { id := id,
              msg := { title := title, body := text, link := link,
                       media := img.map fun u => [Media.photo u] } })

/-- Collection of the per-item results
(`.collect::<Result<Vec<Entry>>>()`): the first failing item aborts the
whole batch, later items are not parsed. -/
def collectItems (urlParse : String → Option String) (j : Json) :
    List JsonValue → Option (Except JError (List Entry))
  | [] => some (.ok [])
  | it :: its =>
    match parseItem urlParse j it with
    | none => none
    | some (.error e) => some (.error e)
    | some (.ok entry) =>
      match collectItems urlParse j its with
      | none => none
      | some (.error e) => some (.error e)
      | some (.ok rest) => some (.ok (entry :: rest))

/-- Entry point `Json::parse`: the raw body is parsed by the external
`serde_json` collaborator `fromStr`, the item path navigated, the terminal
checked to be an array or object, and every item extracted; `none` marks the
panics recorded by `itemsOf` and `parseImg`. -/
def Json.parse (fromStr : String → Except String JsonValue)
    (urlParse : String → Option String) (j : Json) (entry : Entry) :
    Option (Except JError (List Entry)) :=
  match fromStr entry.msg.body with
  | .error e => some (.error (.jsonParseInvalid e))
  | .ok doc =>
    match navigate j.itemq doc with
    | .error e => some (.error e)
    | .ok items =>
      match itemsOf j items with
      | none => none
      | some (.error e) => some (.error e)
      | some (.ok itemList) => collectItems urlParse j itemList

end Reader

namespace Core

lemma claimFold_length (st : Option α) (fs : List (Option α)) :
    (claimFold st fs).length = fs.length := by
  induction fs generalizing st with
  | nil => rfl
  | cons f fs ih => cases f <;> simp [claimFold, ih]

lemma claimFold_getElem_some (fs : List (Option α)) :
    ∀ (st : Option α) (i : Nat) (v : α), fs[i]? = some (some v) →
      (claimFold st fs)[i]? = some (some v) := by
  induction fs with
  | nil => intro st i v h; simp at h
  | cons f fs ih =>
    intro st i v h
    cases f with
    | some w =>
      cases i with
      | zero => simpa [claimFold] using h
      | succ j =>
        simp only [List.getElem?_cons_succ] at h
        simpa [claimFold] using ih st j v h
    | none =>
      cases i with
      | zero => simp at h
      | succ j =>
        simp only [List.getElem?_cons_succ] at h
        simpa [claimFold] using ih none j v h

lemma claimFold_none_getElem (fs : List (Option α)) :
    ∀ (i : Nat), fs[i]? = some none → (claimFold (none : Option α) fs)[i]? = some none := by
  induction fs with
  | nil => intro i h; simp at h
  | cons f fs ih =>
    intro i h
    cases f with
    | some w =>
      cases i with
      | zero => simp at h
      | succ j =>
        simp only [List.getElem?_cons_succ] at h
        simpa [claimFold] using ih j h
    | none =>
      cases i with
      | zero => simp [claimFold]
      | succ j =>
        simp only [List.getElem?_cons_succ] at h
        simpa [claimFold] using ih j h

lemma claimFold_first_none (fs : List (Option α)) :
    ∀ (st : Option α) (i : Nat), fs[i]? = some none →
      (∀ k, k < i → fs[k]? ≠ some none) → (claimFold st fs)[i]? = some st := by
  induction fs with
  | nil => intro st i h _; simp at h
  | cons f fs ih =>
    intro st i h hk
    cases f with
    | some w =>
      cases i with
      | zero => simp at h
      | succ j =>
        simp only [List.getElem?_cons_succ] at h
        have hk2 : ∀ k, k < j → fs[k]? ≠ some none := by
          intro k hkj
          have := hk (k + 1) (by omega)
          simpa using this
        simpa [claimFold] using ih st j h hk2
    | none =>
      cases i with
      | zero => simp [claimFold]
      | succ j =>
        exact absurd (by simp : ((none :: fs) : List (Option α))[0]? = some none)
          (hk 0 (by omega))

lemma claimFold_later_none (fs : List (Option α)) :
    ∀ (st : Option α) (i : Nat), fs[i]? = some none →
      (∃ k, k < i ∧ fs[k]? = some none) → (claimFold st fs)[i]? = some none := by
  induction fs with
  | nil => intro st i h _; simp at h
  | cons f fs ih =>
    intro st i h hex
    cases f with
    | some w =>
      cases i with
      | zero => simp at h
      | succ j =>
        simp only [List.getElem?_cons_succ] at h
        obtain ⟨k, hkj, hknone⟩ := hex
        cases k with
        | zero => simp at hknone
        | succ k2 =>
          simp only [List.getElem?_cons_succ] at hknone
          simpa [claimFold] using ih st j h ⟨k2, by omega, hknone⟩
    | none =>
      cases i with
      | zero =>
        obtain ⟨k, hkj, _⟩ := hex
        omega
      | succ j =>
        simp only [List.getElem?_cons_succ] at h
        simpa [claimFold] using claimFold_none_getElem fs j h

lemma claimFold_claimOnceSpec (st : Option α) (fs : List (Option α)) :
    claimOnceSpec st fs (claimFold st fs) :=
  ⟨claimFold_length st fs, claimFold_getElem_some fs st,
   claimFold_first_none fs st, claimFold_later_none fs st⟩

lemma mergeAll_map_field (F : Entry → Option α)
    (h1 : ∀ st new, F (mergeOne st new).1 = (claimField (F st) (F new)).1)
    (h2 : ∀ st new, F (mergeOne st new).2 = (claimField (F st) (F new)).2)
    (st : Entry) (news : List Entry) :
    (mergeAll st news).map F = claimFold (F st) (news.map F) := by
  induction news generalizing st with
  | nil => rfl
  | cons e es ih =>
    simp only [mergeAll, List.map_cons, claimFold]
    cases hFe : F e with
    | some v =>
      have e1 : F (mergeOne st e).1 = some v := by rw [h1, hFe]; rfl
      have e2 : F (mergeOne st e).2 = F st := by rw [h2, hFe]; rfl
      rw [e1, ih (mergeOne st e).2, e2]
    | none =>
      have e1 : F (mergeOne st e).1 = F st := by rw [h1, hFe]; rfl
      have e2 : F (mergeOne st e).2 = none := by rw [h2, hFe]; rfl
      rw [e1, ih (mergeOne st e).2, e2]

lemma mergeAll_claimOnce (F : Entry → Option α)
    (h1 : ∀ st new, F (mergeOne st new).1 = (claimField (F st) (F new)).1)
    (h2 : ∀ st new, F (mergeOne st new).2 = (claimField (F st) (F new)).2)
    (st : Entry) (news : List Entry) :
    claimOnceSpec (F st) (news.map F) ((mergeAll st news).map F) := by
  rw [mergeAll_map_field F h1 h2 st news]
  exact claimFold_claimOnceSpec (F st) (news.map F)

/-- C1: for every per-entry transform step and every input entry, the
successful result is the merge-fallback of the transform's outputs against the
input, and on each of the six fields (id, raw contents, title, body, link,
media) the backfill is claim-once: outputs keep the values the transform set,
the first output in order whose field is unset receives the input's field, and
every later output whose field is unset ends up with `none`. -/
theorem merge_fallback_claim_once (t : Transform) (entry : Entry) (news : List Entry)
    (h : t.innerOf entry = some (.ok news)) :
    t.transformOne entry = some (.ok (mergeAll entry news)) ∧
    claimOnceSpec entry.id (news.map fun e => e.id)
      ((mergeAll entry news).map fun e => e.id) ∧
    claimOnceSpec entry.raw_contents (news.map fun e => e.raw_contents)
      ((mergeAll entry news).map fun e => e.raw_contents) ∧
    claimOnceSpec entry.msg.title (news.map fun e => e.msg.title)
      ((mergeAll entry news).map fun e => e.msg.title) ∧
    claimOnceSpec entry.msg.body (news.map fun e => e.msg.body)
      ((mergeAll entry news).map fun e => e.msg.body) ∧
    claimOnceSpec entry.msg.link (news.map fun e => e.msg.link)
      ((mergeAll entry news).map fun e => e.msg.link) ∧
    claimOnceSpec entry.msg.media (news.map fun e => e.msg.media)
      ((mergeAll entry news).map fun e => e.msg.media) := by
  refine ⟨by simp [Transform.transformOne, h], ?_, ?_, ?_, ?_, ?_, ?_⟩
  · exact mergeAll_claimOnce (fun e => e.id) (fun _ _ => rfl) (fun _ _ => rfl) entry news
  · exact mergeAll_claimOnce (fun e => e.raw_contents) (fun _ _ => rfl) (fun _ _ => rfl)
      entry news
  · exact mergeAll_claimOnce (fun e => e.msg.title) (fun _ _ => rfl) (fun _ _ => rfl)
      entry news
  · exact mergeAll_claimOnce (fun e => e.msg.body) (fun _ _ => rfl) (fun _ _ => rfl)
      entry news
  · exact mergeAll_claimOnce (fun e => e.msg.link) (fun _ _ => rfl) (fun _ _ => rfl)
      entry news
  · exact mergeAll_claimOnce (fun e => e.msg.media) (fun _ _ => rfl) (fun _ _ => rfl)
      entry news

/-- Witness for C1: a caps-like step expanding one entry carrying
`link = some "L"` into two outputs that both leave every field unset; the
hypothesis of `merge_fallback_claim_once` holds there and the claim-once
conclusion follows for the link field. -/
theorem merge_fallback_claim_once_witness :
    (Transform.caps fun _ => [{}, {}]).innerOf { msg := { link := some "L" } } =
      some (.ok [{}, {}]) ∧
    (Transform.caps fun _ => [{}, {}]).transformOne { msg := { link := some "L" } } =
      some (.ok (mergeAll { msg := { link := some "L" } } [{}, {}])) ∧
    claimOnceSpec (some "L") ([({} : Entry), {}].map fun e => e.msg.link)
      ((mergeAll { msg := { link := some "L" } } [{}, {}]).map fun e => e.msg.link) :=
  ⟨rfl,
   (merge_fallback_claim_once (Transform.caps fun _ => [{}, {}])
      { msg := { link := some "L" } } [{}, {}] rfl).1,
   (merge_fallback_claim_once (Transform.caps fun _ => [{}, {}])
      { msg := { link := some "L" } } [{}, {}] rfl).2.2.2.2.2.1⟩

lemma removeReadNewer_not_mem (lri : String) :
    ∀ (l : List Entry) (e : Entry), e ∈ removeReadNewer lri l → e.id ≠ some lri := by
  intro l
  induction l with
  | nil => intro e h; simp [removeReadNewer] at h
  | cons a as ih =>
    intro e h
    by_cases ha : a.id = some lri
    · simp [removeReadNewer, ha] at h
    · rw [removeReadNewer, if_neg ha] at h
      rcases List.mem_cons.mp h with rfl | h2
      · exact ha
      · exact ih e h2

lemma removeReadNewer_eq_self (lri : String) :
    ∀ (l : List Entry), (∀ e ∈ l, e.id ≠ some lri) → removeReadNewer lri l = l := by
  intro l
  induction l with
  | nil => intro _; rfl
  | cons a as ih =>
    intro h
    rw [removeReadNewer, if_neg (h a (List.mem_cons_self a as))]
    rw [ih fun e he => h e (List.mem_cons_of_mem a he)]

lemma removeReadNewer_sublist (lri : String) :
    ∀ (l : List Entry), (removeReadNewer lri l).Sublist l := by
  intro l
  induction l with
  | nil => exact List.Sublist.refl []
  | cons a as ih =>
    rw [removeReadNewer]
    by_cases ha : a.id = some lri
    · rw [if_pos ha]; exact List.nil_sublist _
    · rw [if_neg ha]; exact ih.cons₂ a

lemma filter_idem (p : Entry → Bool) :
    ∀ (l : List Entry), (l.filter p).filter p = l.filter p := by
  intro l
  induction l with
  | nil => rfl
  | cons a as ih =>
    by_cases ha : p a
    · simp [List.filter_cons, ha, ih]
    · simp [List.filter_cons, ha, ih]

/-- C2: for both read-filter strategies and every entry list, `remove_read` is
idempotent — running it twice with no intervening `mark_as_read` returns the
same surviving list as running it once — and the survivors are a sublist of
the input, preserving relative order. -/
theorem remove_read_idempotent_ordered (rf : ReadFilter) (entries : List Entry) :
    rf.removeReadFrom (rf.removeReadFrom entries) = rf.removeReadFrom entries ∧
    (rf.removeReadFrom entries).Sublist entries := by
  cases hin : rf.inner with
  | newerThanLastRead s =>
    cases hlri : s.last_read_id with
    | none =>
      constructor
      · simp [ReadFilter.removeReadFrom, hin, hlri]
      · simp only [ReadFilter.removeReadFrom, hin, hlri]
        exact List.Sublist.refl entries
    | some lri =>
      simp only [ReadFilter.removeReadFrom, hin, hlri]
      refine ⟨?_, removeReadNewer_sublist lri entries⟩
      exact removeReadNewer_eq_self lri _ (removeReadNewer_not_mem lri entries)
  | notPresentInReadList s =>
    simp only [ReadFilter.removeReadFrom, hin]
    exact ⟨filter_idem _ entries, List.filter_sublist entries⟩

lemma innerOf_isSome (t : Transform) (hnotrf : ∀ rf, t ≠ Transform.readFilter rf)
    (e : Entry) : (t.innerOf e).isSome := by
  cases t with
  | readFilter rf => exact absurd rfl (hnotrf rf)
  | http f => rfl
  | html f => rfl
  | json f => rfl
  | rss f => rfl
  | caps f => rfl

lemma transform_eq_batch (t : Transform) (hnotrf : ∀ rf, t ≠ Transform.readFilter rf)
    (entries : List Entry) : t.transform entries = transformBatch t entries := by
  cases t with
  | readFilter rf => exact absurd rfl (hnotrf rf)
  | http f => rfl
  | html f => rfl
  | json f => rfl
  | rss f => rfl
  | caps f => rfl

/-- C3: for a batch run through a per-entry transform step, if some entry's
inner transform fails then the whole call returns an error (no partial output
list), and that error carries the kind of the first failing entry together
with that entry itself — the original, untouched input element — while every
entry before it transformed successfully. -/
theorem transform_error_carries_original (t : Transform) (entries : List Entry)
    (hnotrf : ∀ rf, t ≠ Transform.readFilter rf)
    (hfail : ∃ e ∈ entries, ∃ k, t.innerOf e = some (.error k)) :
    ∃ err pre post,
      t.transform entries = some (.error err) ∧
      entries = pre ++ err.original_entry :: post ∧
      t.innerOf err.original_entry = some (.error err.kind) ∧
      (∀ p ∈ pre, ∃ outs, t.innerOf p = some (.ok outs)) := by
  rw [transform_eq_batch t hnotrf entries]
  induction entries with
  | nil => obtain ⟨e, he, _⟩ := hfail; simp at he
  | cons a as ih =>
    cases hin : t.innerOf a with
    | none =>
      have := innerOf_isSome t hnotrf a
      rw [hin] at this
      simp at this
    | some res =>
      cases res with
      | error k =>
        refine ⟨{ kind := k, original_entry := a }, [], as, ?_, by simp, hin, by simp⟩
        simp [transformBatch, Transform.transformOne, hin]
      | ok outs =>
        have hfail2 : ∃ e ∈ as, ∃ k, t.innerOf e = some (.error k) := by
          obtain ⟨e, he, k, hek⟩ := hfail
          rcases List.mem_cons.mp he with rfl | he2
          · rw [hin] at hek; simp at hek
          · exact ⟨e, he2, k, hek⟩
        obtain ⟨err, pre, post, hbatch, hsplit, hkind, hpre⟩ := ih hfail2
        refine ⟨err, a :: pre, post, ?_, by simp [hsplit], hkind, ?_⟩
        · simp [transformBatch, Transform.transformOne, hin, hbatch]
        · intro p hp
          rcases List.mem_cons.mp hp with rfl | hp2
          · exact ⟨outs, hin⟩
          · exact hpre p hp2

/-- Concrete failing JSON-like step used by the witness of C3. -/
def jsonFailStep : Transform := Transform.json fun _ => .error (.json "boom")

/-- Witness for C3: the concrete step `jsonFailStep` fails on the lone entry of
a singleton batch; the hypotheses of `transform_error_carries_original` hold
there and the batch call errors with that entry attached. -/
theorem transform_error_carries_original_witness :
    (∀ rf, jsonFailStep ≠ Transform.readFilter rf) ∧
    (∃ e ∈ [({} : Entry)], ∃ k, jsonFailStep.innerOf e = some (.error k)) ∧
    (∃ err pre post,
      jsonFailStep.transform [{}] = some (.error err) ∧
      [({} : Entry)] = pre ++ err.original_entry :: post ∧
      jsonFailStep.innerOf err.original_entry = some (.error err.kind) ∧
      (∀ p ∈ pre, ∃ outs, jsonFailStep.innerOf p = some (.ok outs))) := by
  refine ⟨fun rf h => by simp [jsonFailStep] at h, ⟨{}, by simp, .json "boom", rfl⟩, ?_⟩
  exact transform_error_carries_original jsonFailStep [{}]
    (fun rf h => by simp [jsonFailStep] at h) ⟨{}, by simp, .json "boom", rfl⟩

lemma transformBatch_isSome (t : Transform) (hnotrf : ∀ rf, t ≠ Transform.readFilter rf) :
    ∀ (entries : List Entry), (transformBatch t entries).isSome := by
  intro entries
  induction entries with
  | nil => simp [transformBatch]
  | cons a as ih =>
    have ha := innerOf_isSome t hnotrf a
    rw [transformBatch]
    unfold Transform.transformOne
    cases hin : t.innerOf a with
    | none => rw [hin] at ha; simp at ha
    | some res =>
      cases res with
      | error k => simp
      | ok outs =>
        cases hrest : transformBatch t as with
        | none => rw [hrest] at ih; simp at ih
        | some r => cases r <;> simp

/-- C9: the read-filter variant's per-entry path is exactly the `unreachable!`
panic (modelled as `none`), and the batch dispatch `Transform::transform` never
reaches it: for every transform step and entry list the batch call returns a
value. -/
theorem read_filter_never_per_entry :
    (∀ (rf : ReadFilter) (entry : Entry),
      Transform.transformOne (.readFilter rf) entry = none) ∧
    (∀ (t : Transform) (entries : List Entry), (t.transform entries).isSome) := by
  refine ⟨fun rf entry => rfl, fun t entries => ?_⟩
  cases t with
  | readFilter rf => simp [Transform.transform]
  | http f => exact transformBatch_isSome _ (fun rf h => by simp at h) entries
  | html f => exact transformBatch_isSome _ (fun rf h => by simp at h) entries
  | json f => exact transformBatch_isSome _ (fun rf h => by simp at h) entries
  | rss f => exact transformBatch_isSome _ (fun rf h => by simp at h) entries
  | caps f => exact transformBatch_isSome _ (fun rf h => by simp at h) entries

/-- C10: the `Exec` sink's send is a no-op success on a message without a
body — no process is spawned, nothing written or awaited, and the result is
`Ok(())`, whatever the title, link, media, tag or host outcomes are. -/
theorem exec_send_no_body_noop (cmd : String) (message : Message) (tag : Option String)
    (spawnRes : Except String Bool) (writeRes waitRes : Except String Unit)
    (h : message.body = none) :
    execSend cmd message tag spawnRes writeRes waitRes = ([], .ok ()) := by
  unfold execSend
  rw [h]

/-- Witness for C10: a message with a title and media but no body is sent as a
no-op even with a failing host. -/
theorem exec_send_no_body_noop_witness :
    ({ title := some "t", media := some [Media.photo "u"] } : Message).body = none ∧
    execSend "c" { title := some "t", media := some [Media.photo "u"] } (some "tag")
      (.error "cant spawn") (.ok ()) (.ok ()) = ([], .ok ()) :=
  ⟨rfl, exec_send_no_body_noop "c" { title := some "t", media := some [Media.photo "u"] }
    (some "tag") (.error "cant spawn") (.ok ()) (.ok ()) rfl⟩

end Core

namespace Reader
lemma sendText_retries_then (msg : String) (ns : List Nat) (r : Response)
    (rest : List Response) :
    sendText msg (ns.map Response.retryAfter ++ r :: rest) =
      (List.replicate ns.length msg ++ (sendText msg (r :: rest)).1,
       ns ++ (sendText msg (r :: rest)).2.1,
       (sendText msg (r :: rest)).2.2) := by
  induction ns with
  | nil => simp
  | cons n ns ih => simp [sendText, ih, List.replicate_succ]

lemma sendMedia_retries_then (media : List InputMedia) (ns : List Nat) (r : Response)
    (rest : List Response) :
    sendMedia media (ns.map Response.retryAfter ++ r :: rest) =
      (List.replicate ns.length media ++ (sendMedia media (r :: rest)).1,
       ns ++ (sendMedia media (r :: rest)).2.1,
       (sendMedia media (r :: rest)).2.2) := by
  induction ns with
  | nil => simp
  | cons n ns ih => simp [sendMedia, ih, List.replicate_succ]

/-- C4: the Telegram delivery loops (`send_text` and `send_media`) retry
unboundedly on rate limits and fail fast otherwise: after any number of
`RetryAfter` responses followed by a success the loop returns `Ok` having
slept exactly the advertised seconds and resent the identical payload each
attempt; a non-rate-limit error ends the loop at once with a fatal send error
and no further attempts; and a run that returns `Ok` is exactly a run of
rate-limit responses followed by a success. -/
theorem telegram_retry_loop (msg : String) (media : List InputMedia) (ns : List Nat)
    (rest : List Response) (w : String) :
    (sendText msg (ns.map Response.retryAfter ++ Response.ok :: rest) =
      (List.replicate (ns.length + 1) msg, ns, some (Except.ok ()))) ∧
    (sendText msg (ns.map Response.retryAfter ++ Response.fatal w :: rest) =
      (List.replicate (ns.length + 1) msg, ns, some (Except.error { why := w }))) ∧
    (sendMedia media (ns.map Response.retryAfter ++ Response.ok :: rest) =
      (List.replicate (ns.length + 1) media, ns, some (Except.ok ()))) ∧
    (sendMedia media (ns.map Response.retryAfter ++ Response.fatal w :: rest) =
      (List.replicate (ns.length + 1) media, ns, some (Except.error { why := w }))) ∧
    (∀ rs attempts sleeps, sendText msg rs = (attempts, sleeps, some (Except.ok ())) →
      ∃ ms rest2, rs = ms.map Response.retryAfter ++ Response.ok :: rest2 ∧
        attempts = List.replicate (ms.length + 1) msg ∧ sleeps = ms) := by
  refine ⟨?_, ?_, ?_, ?_, ?_⟩
  · rw [sendText_retries_then]
    simp [sendText, List.replicate_succ']
  · rw [sendText_retries_then]
    simp [sendText, List.replicate_succ']
  · rw [sendMedia_retries_then]
    simp [sendMedia, List.replicate_succ']
  · rw [sendMedia_retries_then]
    simp [sendMedia, List.replicate_succ']
  · intro rs
    induction rs with
    | nil => intro attempts sleeps h; simp [sendText] at h
    | cons r rs ih =>
      intro attempts sleeps h
      cases r with
      | ok =>
        have ha := congrArg Prod.fst h
        have hs := congrArg (fun p => p.2.1) h
        simp only [sendText] at ha hs
        exact ⟨[], rs, by simp, ha.symm, hs.symm⟩
      | fatal why => simp [sendText] at h
      | retryAfter n =>
        simp only [sendText] at h
        have ha := congrArg Prod.fst h
        have hs := congrArg (fun p => p.2.1) h
        have hres := congrArg (fun p => p.2.2) h
        simp only at ha hs hres
        obtain ⟨ms, rest2, hrs, hatts, hsl⟩ :=
          ih (sendText msg rs).1 (sendText msg rs).2.1 (by rw [← hres])
        refine ⟨n :: ms, rest2, by simp [hrs], ?_, ?_⟩
        · rw [← ha, hatts]
          simp [List.replicate_succ]
        · rw [← hs, hsl]

/-- Witness for C4: one rate-limit response advertising two seconds followed
by a success yields two attempts of the same payload and a recorded two-second
sleep; a successful singleton run has the retries-then-success shape. -/
theorem telegram_retry_loop_witness :
    sendText "m" [Response.retryAfter 2, Response.ok] =
      (["m", "m"], [2], some (Except.ok ())) ∧
    (∃ ms rest2, ([Response.ok] : List Response) =
        ms.map Response.retryAfter ++ Response.ok :: rest2 ∧
      (["m"] : List String) = List.replicate (ms.length + 1) "m" ∧ ([] : List Nat) = ms) := by
  constructor
  · have h := (telegram_retry_loop "m" [] [2] [] "e").1
    simpa using h
  · exact (telegram_retry_loop "m" [] [] [] "e").2.2.2.2 [Response.ok] ["m"] [] rfl

lemma utf8ByteSize_mk_eq (cs : List Char) :
    (String.mk cs).utf8ByteSize = (cs.map Char.utf8Size).sum := by
  rw [String.utf8ByteSize_mk]
  induction cs with
  | nil => rfl
  | cons c cs ih => rw [String.utf8Len_cons, ih, List.map_cons, List.sum_cons]; omega

/-- C7 (failing-input evaluation): the truncation step of `Telegram::send`.
On a text of 1366 three-byte characters — 4098 UTF-8 bytes, above the 4096
limit, but only 1366 characters — `char_indices().nth(4096 - 3).unwrap()` has
nothing to unwrap and the send panics (modelled as `none`) instead of
truncating, contradicting both the claim and the code's own "safe unwrap"
comment. On an ASCII text of 4097 characters the text is truncated to 4093
characters plus `"..."` before the single successful attempt, and a short
text is sent unchanged. -/
theorem telegram_truncation_panics :
    telegramSend { text := String.mk (List.replicate 1366 '→'), media := none }
      [Response.ok] = none ∧
    truncated (String.mk (List.replicate 1366 '→')) = none ∧
    telegramSend { text := String.mk (List.replicate 4097 'a'), media := none }
      [Response.ok] =
      some (.text [String.mk (List.replicate 4093 'a') ++ "..."] [],
        some (Except.ok ())) ∧
    telegramSend { text := "hello", media := none } [Response.ok] =
      some (.text ["hello"] [], some (Except.ok ())) := by
  have htrunc : truncated (String.mk (List.replicate 1366 '→')) = none := by
    have hb : (String.mk (List.replicate 1366 '→')).utf8ByteSize = 4098 := by
      rw [utf8ByteSize_mk_eq, List.map_replicate]
      have h3 : Char.utf8Size '→' = 3 := by decide
      rw [h3, List.sum_replicate]
      rfl
    have hl : (String.mk (List.replicate 1366 '→')).length = 1366 := by
      show (List.replicate 1366 '→').length = 1366
      rw [List.length_replicate]
    rw [truncated, if_pos (by omega), if_neg (by omega)]
  have hlong : truncated (String.mk (List.replicate 4097 'a')) =
      some (String.mk (List.replicate 4093 'a') ++ "...") := by
    have hb : (String.mk (List.replicate 4097 'a')).utf8ByteSize = 4097 := by
      rw [utf8ByteSize_mk_eq, List.map_replicate]
      have h1 : Char.utf8Size 'a' = 1 := by decide
      rw [h1, List.sum_replicate]
      rfl
    have hl : (String.mk (List.replicate 4097 'a')).length = 4097 := by
      show (List.replicate 4097 'a').length = 4097
      rw [List.length_replicate]
    rw [truncated, if_pos (by omega), if_pos (by omega)]
    show some (String.mk ((List.replicate 4097 'a').take (4096 - 3)) ++ "...") = _
    rw [List.take_replicate]
    norm_num
  refine ⟨?_, htrunc, ?_, ?_⟩
  · unfold telegramSend
    rw [htrunc]
  · unfold telegramSend
    rw [hlong]
    rfl
  · rfl

/-- C8: `GoogleAuth::access_token` returns the stored token with the
credential state untouched strictly before the stored expiry; at or past the
expiry the single refresh exchange replaces both the token and the expiry
before the fresh token is returned, and a refresh failure is surfaced directly
as the error with no further exchange. -/
theorem token_refresh_boundary (g : GoogleAuth) (now : Nat)
    (resp : Except String GoogleOAuth2Responce) :
    (now < g.expires_in → accessToken g now resp = .ok (g, g.access_token)) ∧
    (g.expires_in ≤ now → ∀ r, resp = .ok r →
      accessToken g now resp =
        .ok ({ g with access_token := r.access_token, expires_in := now + r.expires_in },
          r.access_token)) ∧
    (g.expires_in ≤ now → ∀ e, resp = .error e → accessToken g now resp = .error e) := by
  refine ⟨?_, ?_, ?_⟩
  · intro h
    unfold accessToken
    rw [if_neg (by omega)]
  · intro h r hr
    unfold accessToken
    rw [if_pos h, hr]
  · intro h e he
    unfold accessToken
    rw [if_pos h, he]

/-- Credential fixture expiring at instant 5, used by the witness of C8. -/
def gauth5 : GoogleAuth :=
  { client_id := "i", client_secret := "s", refresh_token := "r",
    access_token := "a", expires_in := 5 }

/-- Witness for C8: with a credential expiring at instant 5, an access at
instant 4 returns the stored token without refreshing, one exactly at
instant 5 refreshes and returns the fresh token, and a failing refresh at
instant 5 surfaces the error. -/
theorem token_refresh_boundary_witness :
    ((4 : Nat) < gauth5.expires_in) ∧
    accessToken gauth5 4 (.ok { access_token := "b", expires_in := 10 }) =
      .ok (gauth5, "a") ∧
    (gauth5.expires_in ≤ 5) ∧
    accessToken gauth5 5 (.ok { access_token := "b", expires_in := 10 }) =
      .ok ({ gauth5 with access_token := "b", expires_in := 15 }, "b") ∧
    accessToken gauth5 5 (.error "refresh failed") = .error "refresh failed" := by
  refine ⟨by decide, ?_, by decide, ?_, ?_⟩
  · exact (token_refresh_boundary gauth5 4 _).1 (by decide)
  · exact (token_refresh_boundary gauth5 5 _).2.1 (by decide) _ rfl
  · exact (token_refresh_boundary gauth5 5 _).2.2 (by decide) _ rfl

lemma parseImg_isSome (urlParse : String → Option String) (imgq : Option (List String))
    (item : JsonValue) (h : imgq ≠ some []) : (parseImg urlParse imgq item).isSome := by
  match imgq with
  | none => rfl
  | some [] => exact absurd rfl h
  | some (q0 :: qrest) =>
    simp only [parseImg]
    cases hg : item.get q0 with
    | none => rfl
    | some first =>
      cases hf : navFrom first qrest with
      | error e => simp [hf]
      | ok imgVal =>
        cases hs : imgVal.asStr with
        | none => simp [hf, hs]
        | some str =>
          cases hu : urlParse str with
          | none => simp [hf, hs, hu]
          | some u => simp [hf, hs, hu]

lemma parseItem_isSome (urlParse : String → Option String) (j : Json) (item : JsonValue)
    (h : j.imgq ≠ some []) : (parseItem urlParse j item).isSome := by
  unfold parseItem
  cases ht : j.textq.mapM (parseTextOne item) with
  | error e => rfl
  | ok texts =>
    cases hid : parseId j.idq item with
    | error e => rfl
    | ok id =>
      cases hl : parseLink urlParse j.linkq item with
      | error e => rfl
      | ok link =>
        have himg := parseImg_isSome urlParse j.imgq item h
        cases hpi : parseImg urlParse j.imgq item with
        | none => rw [hpi] at himg; simp at himg
        | some r => cases r <;> simp

lemma collectItems_first_error (urlParse : String → Option String) (j : Json)
    (h : j.imgq ≠ some []) :
    ∀ (xs : List JsonValue), (∃ it ∈ xs, ∃ e, parseItem urlParse j it = some (.error e)) →
      ∃ e, collectItems urlParse j xs = some (.error e) := by
  intro xs hfail
  induction xs with
  | nil =>
    obtain ⟨it, hm, _⟩ := hfail
    simp at hm
  | cons it its ih =>
    cases hpi : parseItem urlParse j it with
    | none =>
      have := parseItem_isSome urlParse j it h
      rw [hpi] at this
      simp at this
    | some r =>
      cases r with
      | error e => exact ⟨e, by simp [collectItems, hpi]⟩
      | ok en =>
        have hfail2 : ∃ it2 ∈ its, ∃ e, parseItem urlParse j it2 = some (.error e) := by
          obtain ⟨it2, hm, e, he⟩ := hfail
          rcases List.mem_cons.mp hm with rfl | hm2
          · rw [hpi] at he; simp at he
          · exact ⟨it2, hm2, e, he⟩
        obtain ⟨e, hce⟩ := ih hfail2
        exact ⟨e, by simp [collectItems, hpi, hce]⟩

/-- C5: the item path must terminate at an array or an object — any other
terminal value makes `Json::parse` return a type error naming the last path
segment, the expected kinds and the found value's rendering; any per-item path
miss or type mismatch aborts the whole batch with an error (no partial entry
list), while the optional title is exempt: the parse-error behavior of an item
is unchanged by the configured title path. -/
theorem json_type_error_and_batch_abort (fromStr : String → Except String JsonValue)
    (urlParse : String → Option String) (j : Json) (entry : Entry) :
    (∀ (doc items : JsonValue) (hne : j.itemq ≠ []),
      fromStr entry.msg.body = .ok doc → navigate j.itemq doc = .ok items →
      (∀ xs, items ≠ .arr xs) → (∀ kvs, items ≠ .obj kvs) →
      Json.parse fromStr urlParse j entry =
        some (.error (.keyWrongType (j.itemq.getLast hne) "iterator (array, map)"
          items.debugRepr))) ∧
    (∀ (doc : JsonValue) (xs : List JsonValue),
      fromStr entry.msg.body = .ok doc → navigate j.itemq doc = .ok (.arr xs) →
      j.imgq ≠ some [] →
      (∃ it ∈ xs, ∃ e, parseItem urlParse j it = some (.error e)) →
      ∃ e, Json.parse fromStr urlParse j entry = some (.error e)) ∧
    (∀ (t : Option String) (item : JsonValue) (e : JError),
      parseItem urlParse { j with titleq := t } item = some (.error e) ↔
        parseItem urlParse { j with titleq := none } item = some (.error e)) := by
  refine ⟨?_, ?_, ?_⟩
  · intro doc items hne hfrom hnav harr hobj
    have hlast : j.itemq.getLast? = some (j.itemq.getLast hne) :=
      List.getLast?_eq_getLast_of_ne_nil hne
    simp only [Json.parse, hfrom, hnav]
    cases items with
    | arr xs => exact absurd rfl (harr xs)
    | obj kvs => exact absurd rfl (hobj kvs)
    | null => simp [itemsOf, hlast]
    | bool b => simp [itemsOf, hlast]
    | num n isFloat => simp [itemsOf, hlast]
    | str str => simp [itemsOf, hlast]
  · intro doc xs hfrom hnav himgq hfail
    obtain ⟨e, hce⟩ := collectItems_first_error urlParse j himgq xs hfail
    refine ⟨e, ?_⟩
    simp only [Json.parse, hfrom, hnav]
    simp [itemsOf, hce]
  · intro t item e
    unfold parseItem
    cases ht : j.textq.mapM (parseTextOne item) with
    | error e2 => simp
    | ok texts =>
      cases hid : parseId j.idq item with
      | error e2 => simp
      | ok id =>
        cases hl : parseLink urlParse j.linkq item with
        | error e2 => simp
        | ok link =>
          cases hpi : parseImg urlParse j.imgq item with
          | none => simp
          | some r => cases r <;> simp

/-- Witness for C5: a document whose item path lands on the number `5` yields
the terminal type error naming the segment `"a"`, and a document whose lone
item lacks the required id key aborts the whole batch. -/
theorem json_type_error_and_batch_abort_witness :
    ((["a"] : List String) ≠ []) ∧
    (navigate ["a"] (JsonValue.obj [("a", JsonValue.num 5 false)]) =
      .ok (JsonValue.num 5 false)) ∧
    Json.parse (fun _ => Except.ok (JsonValue.obj [("a", JsonValue.num 5 false)]))
      (fun s => some s)
      { itemq := ["a"], titleq := none, textq := [], idq := "id", linkq := none,
        imgq := none }
      { id := "x", msg := { title := none, body := "{}", link := none, media := none } } =
      some (.error (.keyWrongType "a" "iterator (array, map)"
        (JsonValue.num 5 false).debugRepr)) ∧
    (∃ e, Json.parse (fun _ => Except.ok (JsonValue.obj [("a", JsonValue.arr
        [JsonValue.obj [("x", JsonValue.null)]])]))
      (fun s => some s)
      { itemq := ["a"], titleq := none, textq := [], idq := "id", linkq := none,
        imgq := none }
      { id := "x", msg := { title := none, body := "{}", link := none, media := none } } =
      some (.error e)) := by
  refine ⟨by simp, rfl, ?_, ?_⟩
  · exact (json_type_error_and_batch_abort _ _ _ _).1
      (JsonValue.obj [("a", JsonValue.num 5 false)]) (JsonValue.num 5 false)
      (by simp) rfl rfl (by intro xs h; cases h) (by intro kvs h; cases h)
  · exact (json_type_error_and_batch_abort _ _ _ _).2.1
      (JsonValue.obj [("a", JsonValue.arr [JsonValue.obj [("x", JsonValue.null)]])])
      [JsonValue.obj [("x", JsonValue.null)]]
      rfl rfl (by simp)
      ⟨JsonValue.obj [("x", JsonValue.null)], by simp, .keyNotFound "id", rfl⟩

/-- Two-text-query configuration used by the C6 counterexample. -/
def jTwoTexts : Json :=
  { itemq := ["items"], titleq := none,
    textq := [{ string := "t1", prepend := none, append := none },
              { string := "t2", prepend := none, append := none }],
    idq := "id", linkq := none, imgq := none }

/-- C6 counterexample: two configured text paths extracting `"a"` and `"b"`
produce the body `"a\n\nb"` — the texts are joined with a blank line
(`"\n\n"`), not newline-joined as the claim states, which would give
`"a\nb"`. -/
theorem json_texts_not_newline_joined :
    parseItem (fun s => some s) jTwoTexts
      (.obj [("t1", .str "a"), ("t2", .str "b"), ("id", .str "i")]) =
      some (.ok { id := "i",
                  msg := { title := none, body := "a\n\nb", link := none,
                           media := none } }) ∧
    "a\n\nb" ≠ "a\nb" :=
  ⟨rfl, by decide⟩

/-- C6 (amended: the texts are joined with the blank-line separator `"\n\n"`,
not a single newline): for every successfully extracted item the title is the
trimmed string at the title path; each text is trimmed then wrapped with its
literal prepend/append when configured and the texts are `"\n\n"`-joined into
the body; the id is the string value or the decimal rendering of an integral
`i64`/`u64` value, any other type being a type error; the link value is
prepend/append-wrapped and URL-parsed, the image value URL-parsed without
wrapping, and a URL parse failure is an error. -/
theorem json_item_extraction_contract (urlParse : String → Option String)
    (t s1 s2 p a idv L lp la u sImg uImg sBad : String) (n1 n2 n3 : Int)
    (hurl : urlParse (lp ++ L ++ la) = some u)
    (himg : urlParse sImg = some uImg)
    (hbad : urlParse sBad = none)
    (h1 : -(2 ^ 63) ≤ n1 ∧ n1 < 2 ^ 63)
    (h2 : 2 ^ 63 ≤ n2 ∧ n2 < 2 ^ 64) :
    parseItem urlParse
      { itemq := ["items"], titleq := some "ttl",
        textq := [{ string := "t1", prepend := some p, append := some a },
                  { string := "t2", prepend := none, append := none }],
        idq := "id",
        linkq := some { string := "lnk", prepend := some lp, append := some la },
        imgq := none }
      (.obj [("ttl", .str t), ("t1", .str s1), ("t2", .str s2), ("id", .str idv),
        ("lnk", .str L)]) =
      some (.ok { id := idv,
                  msg := { title := some (strTrim t),
                           body := (p ++ strTrim s1 ++ a) ++ "\n\n" ++ strTrim s2,
                           link := some u, media := none } }) ∧
    parseId "id" (.obj [("id", .num n1 false)]) = .ok (toString n1) ∧
    parseId "id" (.obj [("id", .num n2 false)]) = .ok (toString n2) ∧
    parseId "id" (.obj [("id", .num n3 true)]) =
      .error (.keyWrongType "id" "string/i64/u64" (JsonValue.num n3 true).debugRepr) ∧
    parseLink urlParse (some { string := "lnk", prepend := none, append := none })
      (.obj [("lnk", .str sBad)]) = .error (.urlInvalid sBad) ∧
    parseImg urlParse (some ["im", "url"]) (.obj [("im", .obj [("url", .str sImg)])]) =
      some (.ok (some uImg)) := by
  obtain ⟨h1a, h1b⟩ := h1
  obtain ⟨h2a, h2b⟩ := h2
  have h2nl : ¬ n2 < 2 ^ 63 := by omega
  have h2z : (0 : Int) ≤ n2 := by omega
  refine ⟨?_, ?_, ?_, ?_, ?_, ?_⟩
  · have hLink : parseLink urlParse
        (some { string := "lnk", prepend := some lp, append := some la })
        (JsonValue.obj [("ttl", .str t), ("t1", .str s1), ("t2", .str s2),
          ("id", .str idv), ("lnk", .str L)]) = .ok (some u) := by
      have hget : (JsonValue.obj [("ttl", .str t), ("t1", .str s1), ("t2", .str s2),
          ("id", .str idv), ("lnk", .str L)]).get "lnk" = some (.str L) := rfl
      simp [parseLink, hget, hurl, JsonValue.asStr]
    have hText : ([{ string := "t1", prepend := some p, append := some a },
        { string := "t2", prepend := none, append := none }] : List TextQuery).mapM
        (parseTextOne (JsonValue.obj [("ttl", .str t), ("t1", .str s1),
          ("t2", .str s2), ("id", .str idv), ("lnk", .str L)])) =
        .ok [p ++ strTrim s1 ++ a, strTrim s2] := rfl
    simp only [parseItem, hText, hLink, parseId, parseImg, parseTitle, joinSep]
    rfl
  · have hg : (JsonValue.obj [("id", JsonValue.num n1 false)]).get "id" =
        some (.num n1 false) := rfl
    simp only [parseId, hg, JsonValue.asStr, JsonValue.asI64]
    rw [if_pos (⟨h1a, h1b⟩ : -(2 ^ 63) ≤ n1 ∧ n1 < 2 ^ 63)]
  · have hg : (JsonValue.obj [("id", JsonValue.num n2 false)]).get "id" =
        some (.num n2 false) := rfl
    simp only [parseId, hg, JsonValue.asStr, JsonValue.asI64, JsonValue.asU64]
    rw [if_neg (fun hc => h2nl hc.2), if_pos (⟨h2z, h2b⟩ : (0 : Int) ≤ n2 ∧ n2 < 2 ^ 64)]
  · rfl
  · simp [parseLink, JsonValue.get, JsonValue.asStr, hbad]
  · simp [parseImg, navFrom, JsonValue.get, JsonValue.asStr, himg]

/-- External URL collaborator used by the C6 witness: fails on the empty
string, succeeds identically otherwise. -/
def wUrl : String → Option String := fun s => if s = "" then none else some s

/-- Witness for C6: concrete values discharging every hypothesis of
`json_item_extraction_contract`, with the extracted entry spelled out — the
two texts end up separated by a blank line. -/
theorem json_item_extraction_contract_witness :
    (wUrl ("h" ++ "l" ++ "t") = some "hlt") ∧
    (wUrl "img" = some "img") ∧
    (wUrl "" = none) ∧
    (-(2 ^ 63) ≤ (-5 : Int) ∧ (-5 : Int) < 2 ^ 63) ∧
    ((2 ^ 63 : Int) ≤ 2 ^ 63 ∧ (2 ^ 63 : Int) < 2 ^ 64) ∧
    parseItem wUrl
      { itemq := ["items"], titleq := some "ttl",
        textq := [{ string := "t1", prepend := some "P", append := some "A" },
                  { string := "t2", prepend := none, append := none }],
        idq := "id",
        linkq := some { string := "lnk", prepend := some "h", append := some "t" },
        imgq := none }
      (.obj [("ttl", .str " T "), ("t1", .str " x "), ("t2", .str "y"),
        ("id", .str "i7"), ("lnk", .str "l")]) =
      some (.ok { id := "i7",
                  msg := { title := some (strTrim " T "),
                           body := ("P" ++ strTrim " x " ++ "A") ++ "\n\n" ++
                             strTrim "y",
                           link := some "hlt", media := none } }) := by
  refine ⟨rfl, rfl, rfl, by decide, by decide, ?_⟩
  exact (json_item_extraction_contract wUrl " T " " x " "y" "P" "A" "i7" "l" "h" "t"
    "hlt" "img" "img" "" (-5) (2 ^ 63) 0 rfl rfl rfl (by decide) (by decide)).1

end Reader

